import Mathlib

/-!
Verification development for the skywalking-banyandb storage core.

This file gives a shallow embedding, in Lean 4, of the parts of the
repository that the specification's testable properties talk about:

* the `partition` package: `TagLocator`, `EntityLocator`, `NewEntityLocator`,
  `Find`, `Locate`, `GetTagByOffset` (embedded directly from the source);
* the helpers those functions call that live outside the provided sources
  (`pbv1.FindTagByName`, `pbv1.MarshalIndexFieldValue`, `tsdb.Entity.Marshal`,
  `partition.ShardID`): these are modelled from the specification's words and
  each carries a doc comment saying so;
* the `stream` package's `Close` and the chunk-size constant of `openStream`;
* the plain (passthrough) column codec of the encoding pool, modelled from
  the specification;
* the directory layout created by `tsdb.OpenDatabase`, modelled from the
  specification's persisted-layout section and pinned by the repository's
  own `TestOpenDatabase`;
* the liaison-layer gRPC trace `Write` handler and its package-level
  mutable `seriesEventData` singleton.

Go's `(value, error)` multiple returns are embedded as `Except` where the
source never returns both a non-nil value and a non-nil error, and as
explicit tuples where a claim is about the exact tuple the source returns
(`Locate` returns `(nil, 0, err)` on error).
-/

namespace Banyandb

/-! ## Partition package: data model -/

/-- A tag value of a write payload (`modelv1.TagValue`).  The provided
sources only consume these; the value forms follow the specification:
strings carry UTF-8 bytes, integers carry a 64-bit signed value, binary
carries raw bytes.  Bytes are modelled as `Nat` (meant `< 256`). -/
inductive TagValue where
  | str (bytes : List Nat)
  | int (n : Int)
  | binary (bytes : List Nat)
deriving DecidableEq, Repr

/-- One tag family of a write payload (`modelv1.TagFamilyForWrite`): an
ordered list of tag values. -/
structure TagFamilyForWrite where
  tags : List TagValue
deriving DecidableEq, Repr

/-- The errors the partition package can produce.  Both constructors are
wraps of `ErrMalformedElement` ("tag family offset is invalid" and
"tag offset is invalid" in the source). -/
inductive PartErr where
  | familyOffsetInvalid
  | tagOffsetInvalid
deriving DecidableEq, Repr

/-- Both partition errors wrap `ErrMalformedElement`. -/
def PartErr.isMalformedElement : PartErr → Bool
  | .familyOffsetInvalid => true
  | .tagOffsetInvalid => true

/-- A `(tag-family-index, tag-index)` pair, from the source
(`partition.TagLocator`). -/
structure TagLocator where
  FamilyOffset : Nat
  TagOffset : Nat
deriving DecidableEq, Repr

/-- `partition.EntityLocator`: a list of tag locators. -/
abbrev EntityLocator : Type := List TagLocator

/-- Modelled from the spec: `pbv1.MarshalIndexFieldValue` is not under the
provided sources.  The specification says each extracted value "is marshaled
to a canonical byte form (index-field encoding) preserving type-specific
ordering properties (e.g., numeric values encoded so that byte-lexicographic
order matches numeric order, strings encoded as UTF-8 bytes)" and assigns it
no failure case, so it is modelled total.  Integers get the usual 8-byte
big-endian encoding of the two's-complement bit pattern. -/
def marshalIndexFieldValue : TagValue → List Nat
  | .str bytes => bytes
  | .int n =>
    let u : Nat := (n % (2 : Int) ^ 64).toNat
    [u / 2 ^ 56 % 256, u / 2 ^ 48 % 256, u / 2 ^ 40 % 256, u / 2 ^ 32 % 256,
     u / 2 ^ 24 % 256, u / 2 ^ 16 % 256, u / 2 ^ 8 % 256, u % 256]
  | .binary bytes => bytes

/-- Embedded from the source (`partition.GetTagByOffset`):
if `fIndex >= len(value)` fail with the `ErrMalformedElement` wrap
"tag family offset is invalid"; else if `tIndex >= len(family.GetTags())`
fail with the wrap "tag offset is invalid"; else return
`family.GetTags()[tIndex]`.  The Go source returns `(nil, err)` or
`(tag, nil)`, embedded as `Except`. -/
def GetTagByOffset (value : List TagFamilyForWrite) (fIndex tIndex : Nat) :
    Except PartErr TagValue :=
  if h : fIndex < value.length then
    let family := value.get ⟨fIndex, h⟩
    if h2 : tIndex < family.tags.length then
      .ok (family.tags.get ⟨tIndex, h2⟩)
    else
      .error .tagOffsetInvalid
  else
    .error .familyOffsetInvalid

/-- Embedded from the source (`EntityLocator.Find`): walk the locator in
order, fetch each tag by its offsets, marshal it, and collect the marshaled
entries; the first error aborts with `(nil, err)`.  Under the spec-modelled
total `marshalIndexFieldValue` the source's `errMarshal` branch cannot fire
and is therefore absent. -/
def Find : EntityLocator → List TagFamilyForWrite → Except PartErr (List (List Nat))
  | [], _ => .ok []
  | l :: rest, value =>
    match GetTagByOffset value l.FamilyOffset l.TagOffset with
    | .error err => .error err
    | .ok tag =>
      match Find rest value with
      | .error err => .error err
      | .ok entries => .ok (marshalIndexFieldValue tag :: entries)

/-- Modelled from the spec: `tsdb.Entity.Marshal` is not under the provided
sources; the specification computes the shard id from
"hash(concat(entityBytes))", so marshaling an entity concatenates its
entries. -/
def entityMarshal (entity : List (List Nat)) : List Nat := entity.flatten

/-- Modelled from the spec: the shard-routing hash is "a fast,
well-distributed non-cryptographic hash (e.g., 64-bit FNV-style)"; this is
64-bit FNV-1a over the bytes. -/
def fnv64a (bytes : List Nat) : Nat :=
  bytes.foldl (fun h b => ((h ^^^ b % 256) * 1099511628211) % 2 ^ 64)
    14695981039346656037

/-- Modelled from the spec: `partition.ShardID` is not under the provided
sources; the specification computes
`shardID = hash(concat(entityBytes)) mod shardNum`.  The source's error
return exists only for a hash-write failure that cannot occur, so the model
is total. -/
def ShardID (entity : List Nat) (shardNum : Nat) : Nat :=
  fnv64a entity % shardNum

/-- Embedded from the source (`EntityLocator.Locate`): call `Find`; on error
return `(nil, 0, err)`; otherwise return the entity, its shard id and a nil
error.  The Go triple `(tsdb.Entity, common.ShardID, error)` is embedded
literally so the error-path tuple is visible. -/
def Locate (e : EntityLocator) (value : List TagFamilyForWrite)
    (shardNum : Nat) : Option (List (List Nat)) × Nat × Option PartErr :=
  match Find e value with
  | .error err => (none, 0, some err)
  | .ok entity => (some entity, ShardID (entityMarshal entity) shardNum, none)

/-! ## Entity-locator construction -/

/-- One tag family of a schema (`databasev1.TagFamilySpec`), reduced to the
ordered list of its tag names, which is all the locator construction
consumes. -/
structure TagFamilySpec where
  tagNames : List String
deriving DecidableEq, Repr

/-- The entity declaration of a stream schema (`databasev1.Entity`): the
ordered list of entity tag names. -/
structure EntityDecl where
  tagNames : List String
deriving DecidableEq, Repr

/-- Modelled from the spec: `pbv1.FindTagByName` is not under the provided
sources; the specification "resolves each entity tag name to a
(familyIndex, tagIndex) pair by scanning family specs", so the model scans
families in order, then tags in order, returning the first match, or `none`
(the source's nil tag) when the name occurs nowhere. -/
def findTagByNameAux : List TagFamilySpec → String → Nat → Option (Nat × Nat)
  | [], _, _ => none
  | f :: rest, name, fi =>
    match f.tagNames.findIdx? (fun t => t = name) with
    | some ti => some (fi, ti)
    | none => findTagByNameAux rest name (fi + 1)

/-- Scan the family specs for a tag name; see `findTagByNameAux`. -/
def findTagByName (families : List TagFamilySpec) (name : String) :
    Option (Nat × Nat) :=
  findTagByNameAux families name 0

/-- Embedded from the source (`partition.NewEntityLocator`): start from an
empty locator and, for each declared entity tag name in order, append a
`TagLocator` when `findTagByName` resolves the name (the source's
`tag != nil`), and append nothing otherwise.  The Go loop with its
accumulator is kept as a `foldl`. -/
def NewEntityLocator (families : List TagFamilySpec) (entity : EntityDecl) :
    EntityLocator :=
  entity.tagNames.foldl
    (fun locator name =>
      match findTagByName families name with
      | some (fi, ti) => locator ++ [⟨fi, ti⟩]
      | none => locator)
    []

/-! ## Stream close and chunk size -/

/-- The resources `stream.Close` releases, in source order. -/
inductive CloseCall where
  | indexWriter
  | db
deriving DecidableEq, Repr

/-- An error from closing one of the stream's resources. -/
inductive CloseErr where
  | indexCloseFailure
  | dbCloseFailure
deriving DecidableEq, Repr

/-- Embedded from the source (`stream.Close`):
`_ = s.indexWriter.Close(); return s.db.Close()`.  The two parameters are
the results the index writer's and the database's `Close` calls return; the
embedding records that both are invoked (in that order) and that the value
returned to the caller is exactly the database's result — the index
writer's result is bound to `_` and discarded. -/
def streamClose (indexCloseResult dbCloseResult : Option CloseErr) :
    List CloseCall × Option CloseErr :=
  let _ := indexCloseResult
  ([CloseCall.indexWriter, CloseCall.db], dbCloseResult)

/-- From the source: "a chunk is 1MB" — `chunkSize = 1 << 20`, the bound
`openStream` hands to `NewPlainEncoderPool` and `NewPlainDecoderPool`. -/
def chunkSize : Nat := 1 <<< 20

/-! ## Plain codec (encoding pool) -/

/-- Four-byte big-endian encoding of a length below `2 ^ 32`. -/
def lenBytes (n : Nat) : List Nat :=
  [n / 2 ^ 24 % 256, n / 2 ^ 16 % 256, n / 2 ^ 8 % 256, n % 256]

/-- Modelled from the spec: the plain (passthrough) encoder produced by
`encoding.NewPlainEncoderPool` is not under the provided sources.  The
specification requires that "encoders accept raw typed values and return
compact byte runs" and that decoders "reproduce the original typed values in
original order, losslessly"; the passthrough reference codec stores each
column value's bytes verbatim behind a length prefix. -/
def plainEncode (values : List (List Nat)) : List Nat :=
  (values.map (fun v => lenBytes v.length ++ v)).flatten

/-- Modelled from the spec: the plain decoder produced by
`encoding.NewPlainDecoderPool` is not under the provided sources.  It
consumes length-prefixed runs; malformed or truncated input yields `none`
(the specification's `CorruptData`, "never silently partial"). -/
def plainDecode : List Nat → Option (List (List Nat))
  | [] => some []
  | b3 :: b2 :: b1 :: b0 :: rest =>
    let n := ((b3 * 256 + b2) * 256 + b1) * 256 + b0
    if n ≤ rest.length then
      match plainDecode (rest.drop n) with
      | some values => some (rest.take n :: values)
      | none => none
    else
      none
  | _ => none
termination_by l => l.length
decreasing_by
  simp only [List.length_cons, List.length_drop]
  omega

/-! ## Database open: directory layout -/

/-- Modelled from the spec: the `tsdb` path templates are not under the
provided sources; the persisted layout is
root → `shard-<id>/` → a series-store root → segment directories named by
the segment's start time → block directories named by the block's start
time. -/
def shardPath (root : String) (id : Nat) : String :=
  root ++ "/shard-" ++ toString id

/-- The series-store root below one shard; see `shardPath`. -/
def seriesPath (shard : String) : String := shard ++ "/series"

/-- The segment directory for a start time below one shard; see
`shardPath`. -/
def segPath (shard : String) (seg : String) : String :=
  shard ++ "/seg-" ++ seg

/-- The block directory for a start time below one segment; see
`shardPath`. -/
def blockPath (seg : String) (blk : String) : String :=
  seg ++ "/block-" ++ blk

/-- Modelled from the spec: `tsdb.OpenDatabase` is not under the provided
sources.  Its directory-creation behaviour is pinned by the repository's own
`TestOpenDatabase`, which opens a fresh root with `shardNum = 1`, performs
no write, and immediately asserts that the shard directory, the series
directory, the active segment directory (named by today's date) and the
active block directory all exist; the model therefore creates all four
eagerly at open, for every shard id below `shardNum`.  `today` and
`nowBlock` are the canonical textual forms of the open time at segment and
block granularity. -/
def openDatabaseDirs (root : String) (shardNum : Nat)
    (today nowBlock : String) : List String :=
  (List.range shardNum).flatMap (fun id =>
    let shard := shardPath root id
    let seg := segPath shard today
    [shard, seriesPath shard, seg, blockPath seg nowBlock])

/-! ## Liaison layer: the trace Write handler and its global -/

/-- The result of `logical.BuildTraceSchema` as consumed by
`TraceServer.Write`: the handler only calls `schema.FieldSubscript(id)`,
which reports whether a field name is defined and at which subscript. -/
structure TraceSchema where
  fieldSubscript : String → Option Nat

/-- The write entity of one request as consumed by the handler: the handler
only calls `writeEntity.Entity(nil).Fields(&field, sub)`, which reports
whether the field at a subscript is present. -/
structure WriteEntity where
  hasField : Nat → Bool

/-- The observable outcome of handling one received request in
`TraceServer.Write`. -/
inductive WriteOutcome where
  /-- `seriesEventData` is nil and dereferencing it panics. -/
  | nilDeref
  /-- `BuildTraceSchema` failed; the handler returns the error. -/
  | schemaError
  /-- Some series-id field is defined in the schema but missing from the
  entity; the handler returns nil, closing the stream with no response. -/
  | closedNoResponse
  /-- The handler sends a `WriteResponse` and loops. -/
  | responded
deriving DecidableEq, Repr

/-- Embedded from the source (`TraceServer.Write`, one loop iteration):
build the trace schema (returning its error on failure), read the
package-level mutable global `seriesEventData` (a nil global is
dereferenced for its length and panics), walk its composite-series-id field
names, and, at the first name whose subscript is defined in the schema but
whose field is absent from the write entity, return nil without sending a
response; otherwise send a `WriteResponse`.  `seriesEventData` is the value
of the global when the request is handled. -/
def traceServerWriteOne (seriesEventData : Option (List String))
    (buildSchemaResult : Option TraceSchema) (we : WriteEntity) :
    WriteOutcome :=
  match buildSchemaResult with
  | none => .schemaError
  | some schema =>
    match seriesEventData with
    | none => .nilDeref
    | some ids =>
      if ids.any (fun id =>
          match schema.fieldSubscript id with
          | some sub => !we.hasField sub
          | none => false) then
        .closedNoResponse
      else
        .responded

/-- Embedded from the source (`seriesInfo.Rev`): the handler assigns the
received series event to the package-level global
(`seriesEventData = seriesEvent`), overwriting whatever any earlier event
stored there. -/
def seriesInfoRev (received : List String) (oldGlobal : Option (List String)) :
    Option (List String) :=
  let _ := oldGlobal
  some received

end Banyandb

namespace Banyandb

/-- Whether a locator pair is out of range for a payload: its family offset
is past the payload, or its tag offset is past the tags of its family.
This is the condition under which `GetTagByOffset` rejects the pair. -/
def locatorOutOfRange (value : List TagFamilyForWrite) (l : TagLocator) : Bool :=
  if h : l.FamilyOffset < value.length then
    decide ((value.get ⟨l.FamilyOffset, h⟩).tags.length ≤ l.TagOffset)
  else
    true

/-! ## Helper lemmas shared between claims -/

/-- Every error the partition package produces wraps `ErrMalformedElement`. -/
theorem partErr_isMalformedElement (err : PartErr) :
    err.isMalformedElement = true := by
  cases err <;> rfl

theorem getTagByOffset_error_of_outOfRange {value : List TagFamilyForWrite}
    {l : TagLocator} (h : locatorOutOfRange value l = true) :
    ∃ err, GetTagByOffset value l.FamilyOffset l.TagOffset = .error err := by
  unfold locatorOutOfRange at h
  unfold GetTagByOffset
  by_cases hf : l.FamilyOffset < value.length
  · rw [dif_pos hf] at h
    rw [dif_pos hf]
    have htags : ¬ l.TagOffset < (value.get ⟨l.FamilyOffset, hf⟩).tags.length := by
      have := of_decide_eq_true h
      omega
    rw [dif_neg htags]
    exact ⟨.tagOffsetInvalid, rfl⟩
  · rw [dif_neg hf]
    exact ⟨.familyOffsetInvalid, rfl⟩

theorem getTagByOffset_ok_of_inRange {value : List TagFamilyForWrite}
    {l : TagLocator} (h : locatorOutOfRange value l = false) :
    ∃ tag, GetTagByOffset value l.FamilyOffset l.TagOffset = .ok tag := by
  unfold locatorOutOfRange at h
  unfold GetTagByOffset
  by_cases hf : l.FamilyOffset < value.length
  · rw [dif_pos hf] at h
    rw [dif_pos hf]
    have htags : l.TagOffset < (value.get ⟨l.FamilyOffset, hf⟩).tags.length := by
      have := of_decide_eq_false h
      omega
    rw [dif_pos htags]
    exact ⟨_, rfl⟩
  · rw [dif_neg hf] at h
    exact absurd h (by simp)

/-! ## Claims about Find, Locate and GetTagByOffset -/

/-- Claim C1: for every entity locator, every tag-family write payload on
which `Find` succeeds, and every `shardNum ≥ 1`, `Locate` returns the shard
id computed as `hash(concat(entityBytes)) mod shardNum`, and that shard id
lies in `[0, shardNum)`. -/
theorem locate_shard_formula_and_range (e : EntityLocator)
    (v : List TagFamilyForWrite) (shardNum : Nat) (ent : List (List Nat))
    (hns : 1 ≤ shardNum) (hfind : Find e v = .ok ent) :
    Locate e v shardNum =
      (some ent, fnv64a (entityMarshal ent) % shardNum, none) ∧
    fnv64a (entityMarshal ent) % shardNum < shardNum := by
  constructor
  · simp [Locate, ShardID, hfind]
  · exact Nat.mod_lt _ hns

/-- Witness for claim C1 at a concrete locator, payload and `shardNum = 4`. -/
theorem locate_shard_formula_and_range_witness :
    Locate [⟨0, 0⟩] [⟨[.str [104]]⟩] 4 =
      (some [[104]], fnv64a (entityMarshal [[104]]) % 4, none) ∧
    fnv64a (entityMarshal [[104]]) % 4 < 4 :=
  locate_shard_formula_and_range [⟨0, 0⟩] [⟨[.str [104]]⟩] 4 [[104]]
    (by decide) rfl

/-- Claim C2: `Locate` is deterministic — for a fixed locator and
`shardNum`, byte-identical payloads yield the same canonical entity bytes
(`Find` result) and the same shard id; `Find` and `Locate` are pure
functions of their arguments, so this also holds across process
restarts. -/
theorem locate_deterministic (e : EntityLocator)
    (v₁ v₂ : List TagFamilyForWrite) (shardNum : Nat) (h : v₁ = v₂) :
    Find e v₁ = Find e v₂ ∧ Locate e v₁ shardNum = Locate e v₂ shardNum := by
  subst h
  exact ⟨rfl, rfl⟩

/-- Witness for claim C2 at a concrete locator and payload. -/
theorem locate_deterministic_witness :
    Find [⟨0, 0⟩] [⟨[.str [104]]⟩] = Find [⟨0, 0⟩] [⟨[.str [104]]⟩] ∧
    Locate [⟨0, 0⟩] [⟨[.str [104]]⟩] 4 = Locate [⟨0, 0⟩] [⟨[.str [104]]⟩] 4 :=
  locate_deterministic [⟨0, 0⟩] [⟨[.str [104]]⟩] [⟨[.str [104]]⟩] 4 rfl

/-- Claim C9: `Locate` propagates any `Find` error unchanged, and on error
no entity is returned: `Find` yields no entity (never a partially filled
one) and `Locate` returns the tuple `(nil, 0, err)`. -/
theorem locate_propagates_find_error (e : EntityLocator)
    (v : List TagFamilyForWrite) (shardNum : Nat) (err : PartErr)
    (h : Find e v = .error err) :
    Locate e v shardNum = (none, 0, some err) ∧
    ∀ entity, Find e v ≠ .ok entity := by
  constructor
  · simp [Locate, h]
  · intro entity hok
    rw [h] at hok
    exact Except.noConfusion hok

/-- Witness for claim C9 at a payload missing the declared family. -/
theorem locate_propagates_find_error_witness :
    Locate [⟨1, 0⟩] [] 4 = (none, 0, some .familyOffsetInvalid) ∧
    ∀ entity, Find [⟨1, 0⟩] [] ≠ .ok entity :=
  locate_propagates_find_error [⟨1, 0⟩] [] 4 .familyOffsetInvalid rfl

/-- Claim C10: `GetTagByOffset` is total for natural-number (non-negative)
offsets — the Lean function is total by construction, so no indexing is out
of bounds; when both offsets are in range it returns the tag at that
position without error, and otherwise it returns a `MalformedElement`
error. -/
theorem getTagByOffset_total_and_guarded (value : List TagFamilyForWrite)
    (fIndex tIndex : Nat) :
    (∀ (h1 : fIndex < value.length)
       (h2 : tIndex < (value.get ⟨fIndex, h1⟩).tags.length),
      GetTagByOffset value fIndex tIndex =
        .ok ((value.get ⟨fIndex, h1⟩).tags.get ⟨tIndex, h2⟩)) ∧
    (value.length ≤ fIndex ∨ (value.getD fIndex ⟨[]⟩).tags.length ≤ tIndex →
      ∃ err, GetTagByOffset value fIndex tIndex = .error err ∧
        err.isMalformedElement = true) := by
  constructor
  · intro h1 h2
    have h2e : tIndex < value[fIndex].tags.length := h2
    simp [GetTagByOffset, h1, h2e]
  · intro hcond
    by_cases hf : fIndex < value.length
    · have hD : value.getD fIndex ⟨[]⟩ = value[fIndex] :=
        List.getD_eq_getElem value ⟨[]⟩ hf
      have htags : value[fIndex].tags.length ≤ tIndex := by
        rcases hcond with hlen | htag
        · omega
        · rw [hD] at htag
          exact htag
      refine ⟨.tagOffsetInvalid, ?_, rfl⟩
      simp [GetTagByOffset, hf]
      omega
    · refine ⟨.familyOffsetInvalid, ?_, rfl⟩
      simp [GetTagByOffset, hf]

/-- Witness for claim C10: the in-range branch at offsets `(0, 0)` and the
out-of-range branch at family offset `1` of a one-family payload. -/
theorem getTagByOffset_total_and_guarded_witness :
    GetTagByOffset [⟨[.str [1]]⟩] 0 0 = .ok (.str [1]) ∧
    ∃ err, GetTagByOffset [⟨[.str [1]]⟩] 1 0 = .error err ∧
      err.isMalformedElement = true :=
  ⟨(getTagByOffset_total_and_guarded [⟨[.str [1]]⟩] 0 0).1 (by decide) (by decide),
   (getTagByOffset_total_and_guarded [⟨[.str [1]]⟩] 1 0).2 (Or.inl (by decide))⟩

/-- Claim C4: `Find` fails with a `MalformedElement` error whenever any
locator pair's family offset is out of range for the payload or its tag
offset is out of range for the tags of that family; in particular (see the
witness) a payload missing the declared family index makes `Find` fail with
`MalformedElement`. -/
theorem find_malformed_of_outOfRange (e : EntityLocator)
    (v : List TagFamilyForWrite)
    (h : ∃ l ∈ e, locatorOutOfRange v l = true) :
    ∃ err, Find e v = .error err ∧ err.isMalformedElement = true := by
  induction e with
  | nil =>
    rcases h with ⟨l, hl, _⟩
    exact absurd hl (List.not_mem_nil l)
  | cons a rest ih =>
    by_cases ha : locatorOutOfRange v a = true
    · obtain ⟨err, herr⟩ := getTagByOffset_error_of_outOfRange ha
      exact ⟨err, by simp [Find, herr], partErr_isMalformedElement err⟩
    · have ha' : locatorOutOfRange v a = false := by
        simpa using ha
      obtain ⟨tag, htag⟩ := getTagByOffset_ok_of_inRange ha'
      have hrest : ∃ l ∈ rest, locatorOutOfRange v l = true := by
        rcases h with ⟨l, hl, hout⟩
        rcases List.mem_cons.mp hl with rfl | hmem
        · exact absurd hout ha
        · exact ⟨l, hmem, hout⟩
      obtain ⟨err, herr, hmal⟩ := ih hrest
      refine ⟨err, ?_, hmal⟩
      simp [Find, htag, herr]

/-- Witness for claim C4: the locator declares family index `1` but the
payload has no family at all (a payload missing the declared family
index). -/
theorem find_malformed_of_outOfRange_witness :
    ∃ err, Find [⟨1, 0⟩] [] = .error err ∧ err.isMalformedElement = true :=
  find_malformed_of_outOfRange [⟨1, 0⟩] [] ⟨⟨1, 0⟩, by decide, by decide⟩

/-- Auxiliary characterization of the `NewEntityLocator` fold: appending
through the Go loop is the same as filtering-and-mapping the resolved
names, for any accumulator. -/
theorem newEntityLocator_foldl (families : List TagFamilySpec)
    (names : List String) (acc : List TagLocator) :
    names.foldl
      (fun locator name =>
        match findTagByName families name with
        | some (fi, ti) => locator ++ [⟨fi, ti⟩]
        | none => locator)
      acc =
    acc ++ names.filterMap
      (fun name =>
        (findTagByName families name).map (fun p => ⟨p.1, p.2⟩)) := by
  induction names generalizing acc with
  | nil => simp
  | cons n ns ih =>
    cases hfind : findTagByName families n with
    | none =>
      simp only [List.foldl_cons, List.filterMap_cons, hfind, Option.map_none]
      exact ih acc
    | some p =>
      obtain ⟨fi, ti⟩ := p
      simp only [List.foldl_cons, List.filterMap_cons, hfind, Option.map_some]
      rw [ih (acc ++ [({ FamilyOffset := fi, TagOffset := ti } : TagLocator)])]
      simp

/-- Claim C5: `NewEntityLocator` never fails (it is a total function into a
locator list); every declared entity tag name that `findTagByName` resolves
to a `(familyIndex, tagIndex)` pair contributes exactly one `TagLocator`,
in the declared order, and names that do not resolve are silently omitted —
`NewEntityLocator` is exactly the `filterMap` of resolution over the
declared names. -/
theorem newEntityLocator_eq_filterMap (families : List TagFamilySpec)
    (entity : EntityDecl) :
    NewEntityLocator families entity =
      entity.tagNames.filterMap
        (fun name =>
          (findTagByName families name).map (fun p => ⟨p.1, p.2⟩)) := by
  unfold NewEntityLocator
  simpa using newEntityLocator_foldl families entity.tagNames []

/-! ## The plain codec round-trip -/

/-- Decoding the four length bytes recovers a length below `2 ^ 32`. -/
theorem lenBytes_recovers (n : Nat) (h : n < 2 ^ 32) :
    ((n / 2 ^ 24 % 256 * 256 + n / 2 ^ 16 % 256) * 256 +
      n / 2 ^ 8 % 256) * 256 + n % 256 = n := by
  have e32 : (2 : Nat) ^ 32 = 4294967296 := by norm_num
  have e24 : (2 : Nat) ^ 24 = 16777216 := by norm_num
  have e16 : (2 : Nat) ^ 16 = 65536 := by norm_num
  have e8 : (2 : Nat) ^ 8 = 256 := by norm_num
  rw [e32] at h
  rw [e24, e16, e8]
  omega

/-- Claim C3: the codec round-trip — decoding the bytes the plain
(passthrough) reference codec produced for a sequence of column values
reproduces the original values in the original order exactly, losslessly
(for values whose lengths fit the four-byte length prefix). -/
theorem plain_codec_roundtrip (values : List (List Nat))
    (h : ∀ v ∈ values, v.length < 2 ^ 32) :
    plainDecode (plainEncode values) = some values := by
  induction values with
  | nil =>
    have hnil : plainEncode [] = [] := by simp [plainEncode]
    rw [hnil, plainDecode]
  | cons v vs ih =>
    have hv : v.length < 2 ^ 32 := h v (List.mem_cons_self v vs)
    have hrest : ∀ w ∈ vs, w.length < 2 ^ 32 :=
      fun w hw => h w (List.mem_cons_of_mem v hw)
    have henc : plainEncode (v :: vs) =
        v.length / 2 ^ 24 % 256 :: v.length / 2 ^ 16 % 256 ::
        v.length / 2 ^ 8 % 256 :: v.length % 256 :: (v ++ plainEncode vs) := by
      simp [plainEncode, lenBytes]
    rw [henc]
    rw [plainDecode]
    simp only [lenBytes_recovers v.length hv]
    have hle : v.length ≤ (v ++ plainEncode vs).length := by
      simp
    rw [if_pos hle, List.drop_left, ih hrest, List.take_left]

/-- Witness for claim C3 at two concrete column values. -/
theorem plain_codec_roundtrip_witness :
    plainDecode (plainEncode [[1, 2], [3]]) = some [[1, 2], [3]] :=
  plain_codec_roundtrip [[1, 2], [3]] (by decide)

/-! ## Stream close (claim C6) -/

/-- Counterexample to claim C6 as stated: with an index-writer close that
fails and a database close that succeeds, `stream.Close` returns a nil
error — the index writer's close failure is bound to `_` in the source and
swallowed, not aggregated and returned to the caller. -/
theorem streamClose_swallows_index_error :
    (streamClose (some CloseErr.indexCloseFailure) none).2 = none := rfl

/-- Claim C6 as amended: `stream.Close` closes the index writer and then
the database, in that order, but the index writer's close error is
discarded and exactly the database close result is returned to the caller
(no aggregation of partial-close errors). -/
theorem streamClose_returns_db_result_only
    (indexCloseResult dbCloseResult : Option CloseErr) :
    streamClose indexCloseResult dbCloseResult =
      ([CloseCall.indexWriter, CloseCall.db], dbCloseResult) := rfl

/-! ## Database open directory creation (claim C7) -/

/-- Counterexample to claim C7 as stated: immediately after
`openDatabaseDirs` — before any write has happened — the active segment
directory (named by the open day) and the active block directory already
exist, so they do not "exist only after the first write".  This is the very
behaviour the repository's `TestOpenDatabase` asserts: it opens a fresh
root, performs no write, and validates these directories. -/
theorem openDatabase_creates_seg_and_block_eagerly :
    segPath (shardPath "/tmp/root" 0) "20261011" ∈
      openDatabaseDirs "/tmp/root" 1 "20261011" "1700" ∧
    blockPath (segPath (shardPath "/tmp/root" 0) "20261011") "1700" ∈
      openDatabaseDirs "/tmp/root" 1 "20261011" "1700" := by
  constructor <;> simp [openDatabaseDirs, List.range_succ]

/-- Claim C7 as amended: `OpenDatabase` initializes each shard's Series
Store eagerly — opening a fresh database root creates, for every shard id
below `shardNum`, the shard sub-path, the series directory, the active
segment directory (named by the open day) and the active block directory,
before the first write (and hence they also exist after it). -/
theorem openDatabase_dirs_exist_at_open (root today nowBlock : String)
    (shardNum id : Nat) (h : id < shardNum) :
    shardPath root id ∈ openDatabaseDirs root shardNum today nowBlock ∧
    seriesPath (shardPath root id) ∈
      openDatabaseDirs root shardNum today nowBlock ∧
    segPath (shardPath root id) today ∈
      openDatabaseDirs root shardNum today nowBlock ∧
    blockPath (segPath (shardPath root id) today) nowBlock ∈
      openDatabaseDirs root shardNum today nowBlock := by
  have hm : id ∈ List.range shardNum := List.mem_range.mpr h
  refine ⟨?_, ?_, ?_, ?_⟩ <;>
    · apply List.mem_flatMap.mpr
      exact ⟨id, hm, by simp⟩

/-- Witness for the amended claim C7 at a fresh root with one shard. -/
theorem openDatabase_dirs_exist_at_open_witness :
    shardPath "r" 0 ∈ openDatabaseDirs "r" 1 "d" "b" ∧
    seriesPath (shardPath "r" 0) ∈ openDatabaseDirs "r" 1 "d" "b" ∧
    segPath (shardPath "r" 0) "d" ∈ openDatabaseDirs "r" 1 "d" "b" ∧
    blockPath (segPath (shardPath "r" 0) "d") "b" ∈
      openDatabaseDirs "r" 1 "d" "b" :=
  openDatabase_dirs_exist_at_open "r" "d" "b" 1 0 (by decide)

/-! ## The liaison-layer global (claim C8) -/

/-- Counterexample to claim C8 as stated: two handlings of the same request
(same schema result, same write entity) produce different response
behaviour when the process-wide mutable `seriesEventData` differs — under
an empty series event the handler responds, while under a series event
naming a defined-but-absent field it returns nil without responding.  The
handler's behaviour is therefore not independent of series events
previously delivered to other handlers of the process. -/
theorem traceWrite_depends_on_global :
    traceServerWriteOne (some []) (some ⟨fun _ => some 0⟩) ⟨fun _ => false⟩ ≠
    traceServerWriteOne (some ["a"]) (some ⟨fun _ => some 0⟩)
      ⟨fun _ => false⟩ := by
  intro hcontra
  have h1 : traceServerWriteOne (some []) (some ⟨fun _ => some 0⟩)
      ⟨fun _ => false⟩ = .responded := rfl
  have h2 : traceServerWriteOne (some ["a"]) (some ⟨fun _ => some 0⟩)
      ⟨fun _ => false⟩ = .closedNoResponse := rfl
  rw [h1, h2] at hcontra
  exact WriteOutcome.noConfusion hcontra

/-- Claim C8 as amended: the liaison layer keeps a process-wide mutable
singleton (`seriesEventData`) for in-flight series-event data; it is
overwritten by `seriesInfo.Rev` and read by the trace `Write` handler, so
the handler's response behaviour for a given request is determined by the
request together with the last series event delivered — in particular it is
the same in any two runs whose last delivered series event is the same,
regardless of the earlier contents of the singleton, and it can differ
otherwise (see the counterexample). -/
theorem traceWrite_determined_by_last_event
    (oldGlobal₁ oldGlobal₂ : Option (List String)) (received : List String)
    (buildSchemaResult : Option TraceSchema) (we : WriteEntity) :
    traceServerWriteOne (seriesInfoRev received oldGlobal₁)
        buildSchemaResult we =
      traceServerWriteOne (seriesInfoRev received oldGlobal₂)
        buildSchemaResult we := rfl

end Banyandb
